import Mathlib

/-!
Verification of the GST purchase/sales report processor (`app.py`).

The development shallowly embeds the program's data model and operations:
a pandas `DataFrame` becomes a list of column labels together with a list
of rows (lists of cell values); cell values are modelled by `Value`
(text, integer, or the missing marker NaN).  `process_file`, `load_data`
and the button handler are translated directly from the source.  The
in-place mutation `df.columns = df.columns.str.strip()` (performed inside
the resolution loop) is made explicit: `process_file` returns, besides
its result and the error messages it emits, the state of the caller's
DataFrame after the call (`dfAfter`).

Label lookup is first-occurrence; tables produced by the loader have
pairwise distinct labels (the csv/excel readers deduplicate header
names), so this agrees with pandas on every loaded table.
-/

/-- A cell value: a text cell, an integer cell, or the missing marker
(pandas NaN).  `astype(str)` renders NaN as the literal text "nan". -/
inductive Value where
  | str (s : String)
  | num (n : Int)
  | nan
deriving DecidableEq, Repr

/-- String form of a cell value, as produced by pandas `astype(str)`. -/
def Value.toStr : Value → String
  | .str s => s
  | .num n => toString n
  | .nan => "nan"

/-- Missingness test, as used by pandas `dropna`. -/
def Value.isna : Value → Bool
  | .nan => true
  | _ => false

/-- A DataFrame: ordered column labels and ordered rows of cells.
Row `r`'s cell for the `j`-th label is `r.getD j Value.nan`. -/
structure DataFrame where
  columns : List String
  rows : List (List Value)
deriving DecidableEq, Repr

/-- Characters removed by Python `str.strip()` from both ends. -/
def stripChars (l : List Char) : List Char :=
  ((l.dropWhile Char.isWhitespace).reverse.dropWhile Char.isWhitespace).reverse

/-- Python `str.strip()`: remove leading and trailing whitespace. -/
def stripName (s : String) : String :=
  ⟨stripChars s.data⟩

/-- The effect of `df.columns = df.columns.str.strip()` on a DataFrame. -/
def stripCols (df : DataFrame) : DataFrame :=
  ⟨df.columns.map stripName, df.rows⟩

/-- The fixed alias table `col_map` from `process_file`: each logical
output field with its acceptable source column spellings, in declared
order. -/
def col_map : List (String × List String) :=
  [("Date", ["Invoice Date", "Invoice date"]),
   ("Invoice No", ["Invoice No.", "Invoice Number", "Voucher No."]),
   ("Party Name", ["Party Name", "Receiver Name"]),
   ("Taxable Amount", ["Taxable value", "Taxable Value"]),
   ("GST Rate", ["Rate"])]

/-- First index of a label among the column labels (pandas label
lookup). -/
def colIdx : List String → String → Option Nat
  | [], _ => none
  | x :: xs, c => if x = c then some 0 else (colIdx xs c).map (fun n => n + 1)

/-- The cell of row `r` under label `c` (NaN when the label is absent or
the row is short). -/
def getCell (cols : List String) (r : List Value) (c : String) : Value :=
  match colIdx cols c with
  | some n => r.getD n Value.nan
  | none => Value.nan

/-- The resolution loop of `process_file`: for each `col_map` entry it
re-strips the column labels (the in-place `str.strip()` assignment) and
takes the first alias present among them; it stops with the logical
field name on the first entry with no matching alias.  Returns the
DataFrame state reached together with the outcome. -/
def findColsLoop : List (String × List String) → DataFrame →
    DataFrame × Except String (List (String × String))
  | [], df => (df, Except.ok [])
  | (std, poss) :: rest, df =>
    let dfs := stripCols df
    match poss.find? (fun c => dfs.columns.contains c) with
    | none => (dfs, Except.error std)
    | some found =>
      match findColsLoop rest dfs with
      | (df2, Except.ok tl) => (df2, Except.ok ((std, found) :: tl))
      | (df2, Except.error e) => (df2, Except.error e)

/-- Lookup in the `found_cols` association list built by the loop. -/
def assocGet (l : List (String × String)) (k : String) : String :=
  ((l.find? (fun q => q.1 = k)).map Prod.snd).getD ""

/-- Column projection `df[[c1, ..., ck]]` (with `.copy()`). -/
def project (df : DataFrame) (sel : List String) : DataFrame :=
  ⟨sel, df.rows.map (fun r => sel.map (fun c => getCell df.columns r c))⟩

/-- `dropna(subset=...)`: keep the rows whose cells under every subset
label are present. -/
def dropnaSubset (df : DataFrame) (subset : List String) : DataFrame :=
  ⟨df.columns, df.rows.filter
    (fun r => !(subset.any (fun c => (getCell df.columns r c).isna)))⟩

/-- The label renaming of `rename(columns=...)`: a label equal to one of
the found source names becomes the corresponding standard name. -/
def renameMap (found : List (String × String)) (c : String) : String :=
  match found.find? (fun q => q.2 = c) with
  | some q => q.1
  | none => c

/-- `rename(columns={found_cols[X]: X, ...})` applied to a DataFrame. -/
def renameDf (df : DataFrame) (found : List (String × String)) : DataFrame :=
  ⟨df.columns.map (renameMap found), df.rows⟩

/-- Column assignment `df[c] = df[c].map f` (the `astype(str) + sep`
update): rewrite the cell under label `c` in every row. -/
def mapCol (df : DataFrame) (c : String) (f : Value → Value) : DataFrame :=
  match colIdx df.columns c with
  | some n => ⟨df.columns, df.rows.map (fun r => r.set n (f (r.getD n Value.nan)))⟩
  | none => df

/-- `insert(0, ..., range(1, len+1))`: prepend serial cells `k, k+1, ...`
to the rows. -/
def snRows : Int → List (List Value) → List (List Value)
  | _, [] => []
  | k, r :: rs => (Value.num k :: r) :: snRows (k + 1) rs

/-- `final_df.insert(0, chr(83) / N, range(1, len + 1))` followed by the
column-label prepend: add the serial-number column at the front. -/
def insertSN (df : DataFrame) : DataFrame :=
  ⟨"S/N" :: df.columns, snRows 1 df.rows⟩

/-- A single quote character, used inside emitted error messages. -/
def squote : String :=
  ⟨[Char.ofNat 39]⟩

/-- The `st.error` message emitted when a logical field resolves to no
column. -/
def missingColMsg (file_type std : String) : String :=
  "Error in " ++ file_type ++ " file: Could not find the " ++ squote ++ std
    ++ squote ++ " column. Please check the file."

/-- Outcome of a `process_file` call: the returned table (if any), the
error messages emitted via `st.error`, and the state of the caller's
DataFrame object after the call (None when None was passed). -/
structure ProcOutcome where
  result : Option DataFrame
  errors : List String
  dfAfter : Option DataFrame
deriving DecidableEq, Repr

/-- The extraction/cleaning routine `process_file` of `app.py`:
resolve the five logical fields through `col_map` (stripping the column
labels in place), project onto the found columns, drop rows missing
Party Name or Taxable Amount, rename to the standard names, append a
percent sign to the textual form of each GST Rate cell, and prepend the
1-based serial-number column. -/
def process_file (df? : Option DataFrame) (file_type : String) : ProcOutcome :=
  match df? with
  | none => ⟨none, [], none⟩
  | some df =>
    match findColsLoop col_map df with
    | (dfs, Except.error std) =>
      ⟨none, [missingColMsg file_type std], some dfs⟩
    | (dfs, Except.ok found) =>
      let extracted := project dfs
        [assocGet found "Date", assocGet found "Invoice No",
         assocGet found "Party Name", assocGet found "Taxable Amount",
         assocGet found "GST Rate"]
      let filtered := dropnaSubset extracted
        [assocGet found "Party Name", assocGet found "Taxable Amount"]
      let renamed := renameDf filtered found
      let withRate := mapCol renamed "GST Rate"
        (fun v => Value.str (v.toStr ++ "%"))
      ⟨some (insertSN withRate), [], some dfs⟩

deriving instance DecidableEq for Except

/-- An uploaded file: its name and its parse outcome — the raw rows when
the byte stream is well formed, or the parser's exception message when
it is corrupt. -/
structure UploadedFile where
  name : String
  content : Except String (List (List Value))
deriving DecidableEq, Repr

/-- Result of a `load_data` call: a table, an error report followed by
None, or None without any report. -/
inductive LoadOutcome where
  | ok (df : DataFrame)
  | failed (msg : String)
  | silent
deriving DecidableEq, Repr

/-- The table a `load_data` outcome passes on (None unless loading
succeeded). -/
def LoadOutcome.toOption : LoadOutcome → Option DataFrame
  | .ok df => some df
  | _ => none

/-- The error messages a `load_data` outcome emitted via `st.error`. -/
def LoadOutcome.errs : LoadOutcome → List String
  | .failed m => [m]
  | _ => []

/-- The pandas message of the exception raised when `skiprows` consumes
the whole file. -/
def emptyDataMsg : String :=
  "No columns to parse from file"

/-- The `st.error` message emitted by `load_data` on a read exception. -/
def loadErrMsg (name cause : String) : String :=
  "Error reading " ++ name ++ ": " ++ cause
    ++ ". Please ensure it is a valid file with data starting after row 8."

/-- Reading an uploaded byte stream with `skiprows=8`: the first 8 rows
are discarded, the next row becomes the header, the rest become the data
rows; with at most 8 rows the reader raises (nothing left to parse). -/
def readSkip8 (rows : List (List Value)) : Option DataFrame :=
  match rows.drop 8 with
  | [] => none
  | hdr :: data => some ⟨hdr.map Value.toStr, data⟩

/-- Python `str.endswith`: suffix test on the character lists (kept
structurally recursive so that concrete runs reduce). -/
def endsWithName (s post : String) : Bool :=
  post.data.isSuffixOf s.data

/-- The loader `load_data` of `app.py`: dispatch on the file-name
extension, read with `skiprows=8`, report read exceptions via `st.error`
and return None; names with an unrecognized extension fall through to
the final `return None` with no report. -/
def load_data (uf? : Option UploadedFile) : LoadOutcome :=
  match uf? with
  | none => .silent
  | some uf =>
    if endsWithName uf.name ".csv" then
      match uf.content with
      | Except.error e => .failed (loadErrMsg uf.name e)
      | Except.ok rows =>
        match readSkip8 rows with
        | none => .failed (loadErrMsg uf.name emptyDataMsg)
        | some df => .ok df
    else if endsWithName uf.name ".xls" || endsWithName uf.name ".xlsx" then
      match uf.content with
      | Except.error e => .failed (loadErrMsg uf.name e)
      | Except.ok rows =>
        match readSkip8 rows with
        | none => .failed (loadErrMsg uf.name emptyDataMsg)
        | some df => .ok df
    else .silent

/-- One sheet of the output workbook: its name, its table, and whether
`to_excel` writes the synthetic row index (`index=False` in the code). -/
structure Sheet where
  name : String
  table : DataFrame
  includeIndex : Bool
deriving DecidableEq, Repr

/-- Everything the button handler surfaces: the `st.error` messages in
emission order, the `st.warning` messages, and the workbook offered for
download (None when no artifact is produced). -/
structure AppOutcome where
  errors : List String
  warnings : List String
  artifact : Option (List Sheet)
deriving DecidableEq, Repr

/-- The final `st.error` of the handler's failure branch. -/
def reviewMsg : String :=
  "Processing failed. Please review the errors above."

/-- The handler's `st.warning` when an upload is missing. -/
def uploadBothMsg : String :=
  "Please upload both the Purchase and Sales files before processing."

/-- The module-level button handler of `app.py`: with both files
present, load both, process both independently, and produce the
two-sheet workbook exactly when both processings return a table. -/
def handleClick (purchase sales : Option UploadedFile) : AppOutcome :=
  match purchase, sales with
  | some pf, some sf =>
    let lp := load_data (some pf)
    let ls := load_data (some sf)
    let pr := process_file lp.toOption "Purchase"
    let sr := process_file ls.toOption "Sales"
    match pr.result, sr.result with
    | some pdf, some sdf =>
      ⟨lp.errs ++ ls.errs ++ pr.errors ++ sr.errors, [],
       some [⟨"Purchase Data", pdf, false⟩, ⟨"Sales Data", sdf, false⟩]⟩
    | _, _ =>
      ⟨lp.errs ++ ls.errs ++ pr.errors ++ sr.errors ++ [reviewMsg], [], none⟩
  | _, _ => ⟨[], [uploadBothMsg], none⟩

/-!  Specification-side vocabulary used to state the claims. -/

/-- Whether some alias of a field is present among the column labels. -/
def resolvesField (cols : List String) (aliases : List String) : Bool :=
  aliases.any (fun a => cols.contains a)

/-- Whether every logical field of `col_map` has a matching alias. -/
def allFieldsResolve (cols : List String) : Bool :=
  col_map.all (fun pr => resolvesField cols pr.2)

/-- The alias list of a logical field. -/
def fieldAliases (std : String) : List String :=
  ((col_map.find? (fun pr => pr.1 = std)).map Prod.snd).getD []

/-- The first alias of a logical field present among the column labels
(the column the Resolver picks). -/
def resolvedName (cols : List String) (std : String) : String :=
  ((fieldAliases std).find? (fun a => cols.contains a)).getD ""

/-- The first logical field (in declared order) with no matching
alias. -/
def firstMissingField (cols : List String) : String :=
  ((col_map.find? (fun pr => !resolvesField cols pr.2)).map Prod.fst).getD ""

/-- The sequential-resolution outcome over a fixed label set: the found
aliases in declared order, or the first field with no match. -/
def resolveList : List (String × List String) → List String →
    Except String (List (String × String))
  | [], _ => Except.ok []
  | (std, poss) :: rest, cols =>
    match poss.find? (fun a => cols.contains a) with
    | none => Except.error std
    | some found => (resolveList rest cols).map (fun tl => (std, found) :: tl)

/-- Whether a source row survives the missing-value filter: its Party
Name and Taxable Amount cells are both present. -/
def keepRow (cols : List String) (r : List Value) : Bool :=
  !(getCell cols r (resolvedName cols "Party Name")).isna
    && !(getCell cols r (resolvedName cols "Taxable Amount")).isna

/-- The five data cells of the clean row built from a source row:
Date, Invoice No, Party Name, Taxable Amount, and the formatted GST
Rate. -/
def cleanRow (cols : List String) (r : List Value) : List Value :=
  [getCell cols r (resolvedName cols "Date"),
   getCell cols r (resolvedName cols "Invoice No"),
   getCell cols r (resolvedName cols "Party Name"),
   getCell cols r (resolvedName cols "Taxable Amount"),
   Value.str ((getCell cols r (resolvedName cols "GST Rate")).toStr ++ "%")]

/-- The canonical output column order. -/
def finalColumns : List String :=
  ["S/N", "Date", "Invoice No", "Party Name", "Taxable Amount", "GST Rate"]

/-- Recognized upload extensions for `load_data`. -/
def recognizedExt (name : String) : Bool :=
  endsWithName name ".csv" || endsWithName name ".xls" || endsWithName name ".xlsx"

/-!  Concrete tables and uploads used to exercise the theorems. -/

/-- The empty DataFrame. -/
def emptyDf : DataFrame := ⟨[], []⟩

/-- A loaded table using the alias spellings of the spec scenario. -/
def dfGood : DataFrame :=
  ⟨["Invoice Date", "Voucher No.", "Receiver Name", "Taxable value", "Rate"],
   [[Value.str "2024-01-01", Value.str "INV001", Value.str "Acme Co",
     Value.num 1000, Value.num 18]]⟩

/-- A loaded table with one complete row and one row missing the party
name. -/
def dfMixed : DataFrame :=
  ⟨["Invoice Date", "Voucher No.", "Receiver Name", "Taxable value", "Rate"],
   [[Value.str "2024-01-01", Value.str "INV001", Value.str "Acme Co",
     Value.num 1000, Value.num 18],
    [Value.str "2024-01-02", Value.str "INV002", Value.nan,
     Value.num 500, Value.num 12]]⟩

/-- A loaded table with no alias for Taxable Amount. -/
def dfBad : DataFrame :=
  ⟨["Invoice Date", "Voucher No.", "Receiver Name", "Amount", "Rate"], []⟩

/-- A row whose GST Rate cell is missing but whose Party Name and
Taxable Amount cells are present. -/
def nanRow : List Value :=
  [Value.str "2024-03-03", Value.str "INV009", Value.str "Beta Ltd",
   Value.num 250, Value.nan]

/-- A loaded table containing `nanRow`. -/
def dfNan : DataFrame :=
  ⟨["Invoice Date", "Voucher No.", "Receiver Name", "Taxable value", "Rate"],
   [nanRow]⟩

/-- An upload with an unrecognized extension and ten well-formed rows. -/
def txtFile : UploadedFile :=
  ⟨"data.txt", Except.ok (List.replicate 10 [Value.str "x"])⟩

/-- A well-formed purchase upload: 8 banner rows, a header row, one data
row. -/
def pfGood : UploadedFile :=
  ⟨"purchase.csv", Except.ok (List.replicate 8 [Value.str "banner"] ++
    [[Value.str "Invoice Date", Value.str "Voucher No.", Value.str "Receiver Name",
      Value.str "Taxable value", Value.str "Rate"],
     [Value.str "2024-01-01", Value.str "INV001", Value.str "Acme Co",
      Value.num 1000, Value.num 18]])⟩

/-- A well-formed sales upload: 8 banner rows, a header row, one data
row. -/
def sfGood : UploadedFile :=
  ⟨"sales.xlsx", Except.ok (List.replicate 8 [Value.str "banner"] ++
    [[Value.str "Invoice date", Value.str "Invoice Number", Value.str "Party Name",
      Value.str "Taxable Value", Value.str "Rate"],
     [Value.str "2024-02-02", Value.str "S1", Value.str "Gamma Inc",
      Value.num 700, Value.num 5]])⟩

/-!  List helper lemmas. -/

/-- Dropping while a predicate holds is idempotent. -/
theorem dropWhile_idem {α : Type} (p : α → Bool) (l : List α) :
    (l.dropWhile p).dropWhile p = l.dropWhile p := by
  induction l with
  | nil => rfl
  | cons a t ih =>
    by_cases h : p a
    · simp only [List.dropWhile_cons_of_pos h]
      exact ih
    · simp [List.dropWhile_cons_of_neg h, h]

/-- `dropWhile` never grows a list. -/
theorem length_dropWhile_le' {α : Type} (p : α → Bool) (l : List α) :
    (l.dropWhile p).length ≤ l.length := by
  induction l with
  | nil => simp
  | cons a t ih =>
    by_cases h : p a
    · simp only [List.dropWhile_cons_of_pos h]
      exact Nat.le_trans ih (Nat.le_succ _)
    · simp [List.dropWhile_cons_of_neg h]

/-- `dropWhile` on a list ending in an element violating the predicate
keeps that final element. -/
theorem dropWhile_append_last {α : Type} {p : α → Bool} {a : α} (ha : ¬ p a)
    (l : List α) : ∃ s, (l ++ [a]).dropWhile p = s ++ [a] := by
  induction l with
  | nil => exact ⟨[], by simp [List.dropWhile_cons_of_neg ha]⟩
  | cons b t ih =>
    by_cases hb : p b
    · obtain ⟨s, hs⟩ := ih
      exact ⟨s, by simp only [List.cons_append, List.dropWhile_cons_of_pos hb, hs]⟩
    · exact ⟨b :: t, by simp [List.dropWhile_cons_of_neg hb]⟩

/-- If a list is stable under `dropWhile`, so is the result of trimming
its reversed form and reversing back. -/
theorem dropWhile_rev_stable {α : Type} {p : α → Bool} {u : List α}
    (hu : u.dropWhile p = u) :
    ((u.reverse.dropWhile p).reverse).dropWhile p = (u.reverse.dropWhile p).reverse := by
  cases u with
  | nil => simp
  | cons a t =>
    have ha : ¬ p a := by
      intro hpa
      have h1 : (a :: t).dropWhile p = t.dropWhile p :=
        List.dropWhile_cons_of_pos hpa
      rw [h1] at hu
      have h2 : (t.dropWhile p).length ≤ t.length := length_dropWhile_le' p t
      rw [hu] at h2
      simp at h2
    rw [List.reverse_cons]
    obtain ⟨s, hs⟩ := dropWhile_append_last ha t.reverse
    rw [hs, List.reverse_append]
    simp only [List.reverse_cons, List.reverse_nil, List.nil_append,
      List.singleton_append]
    exact List.dropWhile_cons_of_neg ha

/-- Python `strip` applied twice equals `strip` applied once. -/
theorem stripChars_idem (l : List Char) : stripChars (stripChars l) = stripChars l := by
  have hu : (l.dropWhile Char.isWhitespace).dropWhile Char.isWhitespace
      = l.dropWhile Char.isWhitespace := dropWhile_idem _ l
  have hw : (((l.dropWhile Char.isWhitespace).reverse.dropWhile Char.isWhitespace).dropWhile Char.isWhitespace)
      = (l.dropWhile Char.isWhitespace).reverse.dropWhile Char.isWhitespace :=
    dropWhile_idem _ _
  have hwr := dropWhile_rev_stable (p := Char.isWhitespace) hu
  show ((((stripChars l).dropWhile Char.isWhitespace).reverse.dropWhile Char.isWhitespace)).reverse
      = stripChars l
  have h1 : (stripChars l).dropWhile Char.isWhitespace = stripChars l := hwr
  rw [h1]
  show (((l.dropWhile Char.isWhitespace).reverse.dropWhile Char.isWhitespace).reverse.reverse.dropWhile Char.isWhitespace).reverse = _
  rw [List.reverse_reverse, hw]
  rfl

/-- `str.strip()` is idempotent. -/
theorem stripName_idem (s : String) : stripName (stripName s) = stripName s := by
  show String.mk (stripChars (stripChars s.data)) = String.mk (stripChars s.data)
  exact congrArg String.mk (stripChars_idem s.data)

/-- The in-place column-label strip is idempotent. -/
theorem stripCols_idem (df : DataFrame) : stripCols (stripCols df) = stripCols df := by
  show DataFrame.mk ((df.columns.map stripName).map stripName) df.rows = _
  rw [List.map_map]
  have : df.columns.map (stripName ∘ stripName) = df.columns.map stripName :=
    List.map_congr_left (fun a _ => stripName_idem a)
  rw [this]
  rfl

/-!  Characterization of the resolution loop. -/

/-- On an already-stripped DataFrame the resolution loop leaves the
frame unchanged and its outcome is the sequential resolution over the
stripped labels. -/
theorem findColsLoop_eq (m : List (String × List String)) (df : DataFrame) :
    findColsLoop m (stripCols df) =
      (stripCols df, resolveList m (stripCols df).columns) := by
  induction m with
  | nil => rfl
  | cons x rest ih =>
    obtain ⟨std, poss⟩ := x
    show findColsLoop ((std, poss) :: rest) (stripCols df) = _
    simp only [findColsLoop, stripCols_idem df]
    cases hfind : poss.find? (fun c => (stripCols df).columns.contains c) with
    | none =>
      simp only [resolveList]
      rw [hfind]
    | some found =>
      rw [ih]
      simp only [resolveList]
      rw [hfind]
      cases hres : resolveList rest (stripCols df).columns with
      | ok tl => simp [hres, Except.map]
      | error e => simp [hres, Except.map]

/-- One step of the loop on an arbitrary (cons-shaped) alias table:
the caller frame is stripped once, and the outcome is the sequential
resolution over the stripped labels. -/
theorem findColsLoop_cons (std : String) (poss : List String)
    (m : List (String × List String)) (df : DataFrame) :
    findColsLoop ((std, poss) :: m) df =
      (stripCols df, resolveList ((std, poss) :: m) (stripCols df).columns) := by
  simp only [findColsLoop]
  cases hfind : poss.find? (fun c => (stripCols df).columns.contains c) with
  | none =>
    simp only [resolveList]
    rw [hfind]
  | some found =>
    rw [findColsLoop_eq]
    simp only [resolveList]
    rw [hfind]
    cases hres : resolveList m (stripCols df).columns with
    | ok tl => simp [hres, Except.map]
    | error e => simp [hres, Except.map]

/-- The resolution loop of `process_file` over the real alias table. -/
theorem findColsLoop_colmap (df : DataFrame) :
    findColsLoop col_map df =
      (stripCols df, resolveList col_map (stripCols df).columns) :=
  findColsLoop_cons "Date" ["Invoice Date", "Invoice date"] _ df

/-- When the alias list of every field matches, sequential resolution
returns, per field, the first matching alias in declared order. -/
theorem resolveList_ok (m : List (String × List String)) (cols : List String)
    (h : ∀ pr ∈ m, resolvesField cols pr.2 = true) :
    resolveList m cols = Except.ok (m.map (fun pr =>
      (pr.1, (pr.2.find? (fun a => cols.contains a)).getD ""))) := by
  induction m with
  | nil => rfl
  | cons x rest ih =>
    obtain ⟨std, poss⟩ := x
    have hx : resolvesField cols poss = true := h _ (List.mem_cons_self _ _)
    have hs : (poss.find? (fun a => cols.contains a)).isSome := by
      rw [List.find?_isSome]
      simpa [resolvesField, List.any_eq_true] using hx
    obtain ⟨found, hfound⟩ := Option.isSome_iff_exists.mp hs
    have hrest := ih (fun pr hpr => h pr (List.mem_cons_of_mem _ hpr))
    simp only [resolveList, List.map_cons]
    rw [hfound, hrest]
    simp [Except.map]

/-- Sequential resolution stops with the first field (in declared
order) whose alias list has no match. -/
theorem resolveList_err (m : List (String × List String)) (cols : List String)
    (q : String × List String)
    (hq : m.find? (fun pr => !resolvesField cols pr.2) = some q) :
    resolveList m cols = Except.error q.1 := by
  induction m with
  | nil => cases hq
  | cons x rest ih =>
    obtain ⟨std, poss⟩ := x
    cases hx : resolvesField cols poss with
    | true =>
      have hq2 : rest.find? (fun pr => !resolvesField cols pr.2) = some q := by
        simpa [List.find?_cons, hx] using hq
      have hs : (poss.find? (fun a => cols.contains a)).isSome := by
        rw [List.find?_isSome]
        simpa [resolvesField, List.any_eq_true] using hx
      obtain ⟨found, hfound⟩ := Option.isSome_iff_exists.mp hs
      have hrest := ih hq2
      simp only [resolveList]
      rw [hfound, hrest]
      simp [Except.map]
    | false =>
      have hqe : q = (std, poss) := by
        have := hq
        simp only [List.find?_cons, hx] at this
        exact (Option.some.inj this).symm
      have hnone : poss.find? (fun a => cols.contains a) = none := by
        rw [List.find?_eq_none]
        intro a ha hcon
        have hres : resolvesField cols poss = true := by
          rw [resolvesField, List.any_eq_true]
          exact ⟨a, ha, hcon⟩
        rw [hres] at hx
        cases hx
      simp only [resolveList]
      rw [hnone, hqe]

/-!  Distinctness of resolved column names, and small list lemmas. -/

/-- Names found for distinct logical fields are pairwise distinct: the
alias lists of `col_map` are pairwise disjoint. -/
theorem found_names_distinct {d i pn t rr : String}
    (hd : d ∈ ["Invoice Date", "Invoice date"])
    (hi : i ∈ ["Invoice No.", "Invoice Number", "Voucher No."])
    (hp : pn ∈ ["Party Name", "Receiver Name"])
    (ht : t ∈ ["Taxable value", "Taxable Value"])
    (hr : rr ∈ ["Rate"]) :
    d ≠ i ∧ d ≠ pn ∧ d ≠ t ∧ d ≠ rr ∧ i ≠ pn ∧ i ≠ t ∧ i ≠ rr
      ∧ pn ≠ t ∧ pn ≠ rr ∧ t ≠ rr := by
  fin_cases hd <;> fin_cases hi <;> fin_cases hp <;> fin_cases ht <;>
    fin_cases hr <;> decide

/-- Filtering a mapped list filters the source through the composed
predicate. -/
theorem filter_of_map {α β : Type} (f : α → β) (p : β → Bool) (l : List α) :
    (l.map f).filter p = (l.filter (fun a => p (f a))).map f := by
  induction l with
  | nil => rfl
  | cons a t ih =>
    by_cases h : p (f a)
    · simp [h, ih]
    · simp [h, ih]

/-- A list splits into the rows kept and the rows dropped by a
predicate. -/
theorem length_filter_not {α : Type} (p : α → Bool) (l : List α) :
    (l.filter p).length + (l.filter (fun a => !(p a))).length = l.length := by
  induction l with
  | nil => rfl
  | cons a t ih =>
    by_cases h : p a
    · simp only [List.filter_cons, h, if_pos]
      simp only [Bool.not_true, Bool.false_eq_true, if_false, List.length_cons]
      omega
    · have h' : p a = false := by
        cases hpa : p a
        · rfl
        · exact absurd hpa h
      simp only [List.filter_cons, h', Bool.not_false, if_true,
        Bool.false_eq_true, if_false, List.length_cons]
      omega

/-- Length of the serial-numbered rows. -/
theorem snRows_length (k : Int) (l : List (List Value)) :
    (snRows k l).length = l.length := by
  induction l generalizing k with
  | nil => rfl
  | cons r rs ih => simp [snRows, ih]

/-- The `j`-th serial-numbered row is the `j`-th source row with serial
`k + j` prepended. -/
theorem snRows_getElem? (k : Int) (l : List (List Value)) (j : Nat) :
    (snRows k l)[j]? = (l[j]?).map (fun r => Value.num (k + j) :: r) := by
  induction l generalizing k j with
  | nil => simp [snRows]
  | cons r rs ih =>
    cases j with
    | zero => simp [snRows]
    | succ n =>
      simp only [snRows, List.getElem?_cons_succ]
      rw [ih (k + 1) n]
      have hc : (k + 1) + (n : Int) = k + ((n : Int) + 1) := by ring
      simp [hc]

/-- Every source row appears among the serial-numbered rows with some
serial prepended. -/
theorem snRows_mem {b : List Value} {l : List (List Value)} (hb : b ∈ l)
    (k : Int) : ∃ j : Int, (Value.num j :: b) ∈ snRows k l := by
  induction l generalizing k with
  | nil => cases hb
  | cons r rs ih =>
    rcases List.mem_cons.mp hb with rfl | h
    · exact ⟨k, List.mem_cons_self _ _⟩
    · obtain ⟨j, hj⟩ := ih h (k + 1)
      exact ⟨j, List.mem_cons_of_mem _ hj⟩

/-!  The two branches of `process_file`. -/

/-- Helper: a resolving field has a first matching alias, and that
alias belongs to the alias list. -/
theorem find_of_resolves {cols poss : List String}
    (hp : resolvesField cols poss = true) :
    ∃ v, poss.find? (fun a => cols.contains a) = some v ∧ v ∈ poss := by
  have hs : (poss.find? (fun a => cols.contains a)).isSome := by
    rw [List.find?_isSome]
    simpa [resolvesField, List.any_eq_true] using hp
  obtain ⟨v, hv⟩ := Option.isSome_iff_exists.mp hs
  exact ⟨v, hv, List.mem_of_find?_eq_some hv⟩

/-- Success branch of `process_file`: when every logical field has a
matching alias among the stripped labels, the call returns the clean
table — canonical columns, serial-numbered clean rows of the surviving
source rows — emits no error, and leaves the caller's frame stripped. -/
theorem process_file_ok (df : DataFrame) (ft : String)
    (hall : allFieldsResolve (stripCols df).columns = true) :
    process_file (some df) ft =
      ⟨some ⟨finalColumns,
        snRows 1 ((df.rows.filter (keepRow (stripCols df).columns)).map
          (cleanRow (stripCols df).columns))⟩,
       [], some (stripCols df)⟩ := by
  have hall5 : ∀ pr ∈ col_map, resolvesField (stripCols df).columns pr.2 = true := by
    rw [allFieldsResolve, List.all_eq_true] at hall
    exact hall
  obtain ⟨d, hfd, hmd⟩ := find_of_resolves
    (hall5 ("Date", ["Invoice Date", "Invoice date"]) (by simp [col_map]))
  obtain ⟨i, hfi, hmi⟩ := find_of_resolves
    (hall5 ("Invoice No", ["Invoice No.", "Invoice Number", "Voucher No."]) (by simp [col_map]))
  obtain ⟨pn, hfp, hmp⟩ := find_of_resolves
    (hall5 ("Party Name", ["Party Name", "Receiver Name"]) (by simp [col_map]))
  obtain ⟨t, hft, hmt⟩ := find_of_resolves
    (hall5 ("Taxable Amount", ["Taxable value", "Taxable Value"]) (by simp [col_map]))
  obtain ⟨rr, hfr, hmr⟩ := find_of_resolves
    (hall5 ("GST Rate", ["Rate"]) (by simp [col_map]))
  obtain ⟨hdi, hdp, hdt, hdr, hip, hit, hir, hpt, hpr3, htr⟩ :=
    found_names_distinct hmd hmi hmp hmt hmr
  have hresolve : resolveList col_map (stripCols df).columns =
      Except.ok [("Date", d), ("Invoice No", i), ("Party Name", pn),
        ("Taxable Amount", t), ("GST Rate", rr)] := by
    simp only [col_map, resolveList]
    rw [hfd, hfi, hfp, hft, hfr]
    rfl
  have hpair : findColsLoop col_map df =
      (stripCols df, Except.ok [("Date", d), ("Invoice No", i), ("Party Name", pn),
        ("Taxable Amount", t), ("GST Rate", rr)]) := by
    rw [findColsLoop_colmap, hresolve]
  have ha1 : assocGet [("Date", d), ("Invoice No", i), ("Party Name", pn),
      ("Taxable Amount", t), ("GST Rate", rr)] "Date" = d := rfl
  have ha2 : assocGet [("Date", d), ("Invoice No", i), ("Party Name", pn),
      ("Taxable Amount", t), ("GST Rate", rr)] "Invoice No" = i := rfl
  have ha3 : assocGet [("Date", d), ("Invoice No", i), ("Party Name", pn),
      ("Taxable Amount", t), ("GST Rate", rr)] "Party Name" = pn := rfl
  have ha4 : assocGet [("Date", d), ("Invoice No", i), ("Party Name", pn),
      ("Taxable Amount", t), ("GST Rate", rr)] "Taxable Amount" = t := rfl
  have ha5 : assocGet [("Date", d), ("Invoice No", i), ("Party Name", pn),
      ("Taxable Amount", t), ("GST Rate", rr)] "GST Rate" = rr := rfl
  have key : process_file (some df) ft = ⟨some (insertSN (mapCol (renameDf
      (dropnaSubset (project (stripCols df) [d, i, pn, t, rr]) [pn, t])
      [("Date", d), ("Invoice No", i), ("Party Name", pn),
       ("Taxable Amount", t), ("GST Rate", rr)])
      "GST Rate" (fun v => Value.str (v.toStr ++ "%")))), [], some (stripCols df)⟩ := by
    simp only [process_file, hpair, ha1, ha2, ha3, ha4, ha5]
  have hrn1 : resolvedName (stripCols df).columns "Date" = d := by
    rw [resolvedName, show fieldAliases "Date" = ["Invoice Date", "Invoice date"] from rfl, hfd]
    rfl
  have hrn2 : resolvedName (stripCols df).columns "Invoice No" = i := by
    rw [resolvedName, show fieldAliases "Invoice No"
      = ["Invoice No.", "Invoice Number", "Voucher No."] from rfl, hfi]
    rfl
  have hrn3 : resolvedName (stripCols df).columns "Party Name" = pn := by
    rw [resolvedName, show fieldAliases "Party Name"
      = ["Party Name", "Receiver Name"] from rfl, hfp]
    rfl
  have hrn4 : resolvedName (stripCols df).columns "Taxable Amount" = t := by
    rw [resolvedName, show fieldAliases "Taxable Amount"
      = ["Taxable value", "Taxable Value"] from rfl, hft]
    rfl
  have hrn5 : resolvedName (stripCols df).columns "GST Rate" = rr := by
    rw [resolvedName, show fieldAliases "GST Rate" = ["Rate"] from rfl, hfr]
    rfl
  have hproj : project (stripCols df) [d, i, pn, t, rr] =
      ⟨[d, i, pn, t, rr], df.rows.map (fun r =>
        [getCell (stripCols df).columns r d, getCell (stripCols df).columns r i,
         getCell (stripCols df).columns r pn, getCell (stripCols df).columns r t,
         getCell (stripCols df).columns r rr])⟩ := by
    simp only [project, List.map_cons, List.map_nil]
    rfl
  have hc3 : colIdx [d, i, pn, t, rr] pn = some 2 := by
    simp [colIdx, hdp, hip]
  have hc4 : colIdx [d, i, pn, t, rr] t = some 3 := by
    simp [colIdx, hdt, hit, hpt]
  have hgp : ∀ r : List Value, getCell [d, i, pn, t, rr]
      [getCell (stripCols df).columns r d, getCell (stripCols df).columns r i,
       getCell (stripCols df).columns r pn, getCell (stripCols df).columns r t,
       getCell (stripCols df).columns r rr] pn = getCell (stripCols df).columns r pn := by
    intro r
    rw [getCell, hc3]
    rfl
  have hgt : ∀ r : List Value, getCell [d, i, pn, t, rr]
      [getCell (stripCols df).columns r d, getCell (stripCols df).columns r i,
       getCell (stripCols df).columns r pn, getCell (stripCols df).columns r t,
       getCell (stripCols df).columns r rr] t = getCell (stripCols df).columns r t := by
    intro r
    rw [getCell, hc4]
    rfl
  have hfilter : dropnaSubset (project (stripCols df) [d, i, pn, t, rr]) [pn, t] =
      ⟨[d, i, pn, t, rr], (df.rows.filter (keepRow (stripCols df).columns)).map (fun r =>
        [getCell (stripCols df).columns r d, getCell (stripCols df).columns r i,
         getCell (stripCols df).columns r pn, getCell (stripCols df).columns r t,
         getCell (stripCols df).columns r rr])⟩ := by
    rw [hproj, dropnaSubset]
    refine congrArg (DataFrame.mk [d, i, pn, t, rr]) ?_
    rw [filter_of_map]
    refine congrArg (List.map _) ?_
    refine List.filter_congr ?_
    intro r _
    show (!([pn, t].any (fun c => (getCell [d, i, pn, t, rr]
      [getCell (stripCols df).columns r d, getCell (stripCols df).columns r i,
       getCell (stripCols df).columns r pn, getCell (stripCols df).columns r t,
       getCell (stripCols df).columns r rr] c).isna))) = keepRow (stripCols df).columns r
    rw [List.any_cons, List.any_cons, List.any_nil, hgp r, hgt r,
      keepRow, hrn3, hrn4]
    cases (getCell (stripCols df).columns r pn).isna <;>
      cases (getCell (stripCols df).columns r t).isna <;> rfl
  have hrename : [d, i, pn, t, rr].map (renameMap
      [("Date", d), ("Invoice No", i), ("Party Name", pn),
       ("Taxable Amount", t), ("GST Rate", rr)]) =
      ["Date", "Invoice No", "Party Name", "Taxable Amount", "GST Rate"] := by
    simp [renameMap, List.find?_cons, hdi, hdp, hdt, hdr, hip, hit, hir, hpt, hpr3, htr]
  have hsetrow : ∀ r : List Value,
      ([getCell (stripCols df).columns r d, getCell (stripCols df).columns r i,
        getCell (stripCols df).columns r pn, getCell (stripCols df).columns r t,
        getCell (stripCols df).columns r rr].set 4
        (Value.str (([getCell (stripCols df).columns r d, getCell (stripCols df).columns r i,
          getCell (stripCols df).columns r pn, getCell (stripCols df).columns r t,
          getCell (stripCols df).columns r rr].getD 4 Value.nan).toStr ++ "%")))
      = cleanRow (stripCols df).columns r := by
    intro r
    rw [cleanRow, hrn1, hrn2, hrn3, hrn4, hrn5]
    rfl
  rw [key]
  refine congrArg (fun x => ProcOutcome.mk (some x) [] (some (stripCols df))) ?_
  rw [hfilter, renameDf, hrename]
  rw [show mapCol ⟨["Date", "Invoice No", "Party Name", "Taxable Amount", "GST Rate"],
      ((df.rows.filter (keepRow (stripCols df).columns)).map (fun r =>
        [getCell (stripCols df).columns r d, getCell (stripCols df).columns r i,
         getCell (stripCols df).columns r pn, getCell (stripCols df).columns r t,
         getCell (stripCols df).columns r rr]))⟩ "GST Rate"
      (fun v => Value.str (v.toStr ++ "%")) =
    ⟨["Date", "Invoice No", "Party Name", "Taxable Amount", "GST Rate"],
      ((df.rows.filter (keepRow (stripCols df).columns)).map (fun r =>
        [getCell (stripCols df).columns r d, getCell (stripCols df).columns r i,
         getCell (stripCols df).columns r pn, getCell (stripCols df).columns r t,
         getCell (stripCols df).columns r rr])).map (fun rw2 =>
        rw2.set 4 (Value.str ((rw2.getD 4 Value.nan).toStr ++ "%")))⟩ from rfl]
  rw [List.map_map]
  rw [insertSN]
  refine congrArg (DataFrame.mk finalColumns) ?_
  refine congrArg (snRows 1) ?_
  exact List.map_congr_left (fun r _ => hsetrow r)

/-- Failure branch of `process_file`: when some logical field has no
matching alias among the stripped labels, the call returns no table,
emits exactly one error naming the file type and the first missing
field, and leaves the caller's frame stripped. -/
theorem process_file_err (df : DataFrame) (ft : String)
    (hfail : allFieldsResolve (stripCols df).columns = false) :
    process_file (some df) ft =
      ⟨none, [missingColMsg ft (firstMissingField (stripCols df).columns)],
       some (stripCols df)⟩ := by
  have hex : ∃ pr, pr ∈ col_map ∧
      resolvesField (stripCols df).columns pr.2 = false := by
    rw [allFieldsResolve, List.all_eq_false] at hfail
    obtain ⟨pr, hmem, hnot⟩ := hfail
    refine ⟨pr, hmem, ?_⟩
    cases hv : resolvesField (stripCols df).columns pr.2
    · rfl
    · exact absurd hv hnot
  obtain ⟨pr, hmem, hval⟩ := hex
  have hs : (col_map.find? (fun pr2 => !resolvesField (stripCols df).columns pr2.2)).isSome := by
    rw [List.find?_isSome]
    exact ⟨pr, hmem, by rw [hval]; rfl⟩
  obtain ⟨q, hq⟩ := Option.isSome_iff_exists.mp hs
  have hresolve := resolveList_err col_map (stripCols df).columns q hq
  have hpair : findColsLoop col_map df = (stripCols df, Except.error q.1) := by
    rw [findColsLoop_colmap, hresolve]
  have hfirst : firstMissingField (stripCols df).columns = q.1 := by
    rw [firstMissingField, hq]
    rfl
  simp only [process_file, hpair, hfirst]

/-- Success of `process_file` is equivalent to every field resolving. -/
theorem process_file_isSome (df : DataFrame) (ft : String) :
    (process_file (some df) ft).result.isSome
      = allFieldsResolve (stripCols df).columns := by
  cases h : allFieldsResolve (stripCols df).columns
  · rw [process_file_err df ft h]
    rfl
  · rw [process_file_ok df ft h]
    rfl

/-- A returned table forces resolution success. -/
theorem result_some_resolve {df : DataFrame} {ft : String} {out : DataFrame}
    (h : (process_file (some df) ft).result = some out) :
    allFieldsResolve (stripCols df).columns = true := by
  have hs := process_file_isSome df ft
  rw [h] at hs
  exact hs.symm

/-- The shape of every returned table. -/
theorem result_shape {df : DataFrame} {ft : String} {out : DataFrame}
    (h : (process_file (some df) ft).result = some out) :
    out = ⟨finalColumns,
      snRows 1 ((df.rows.filter (keepRow (stripCols df).columns)).map
        (cleanRow (stripCols df).columns))⟩ := by
  have hall := result_some_resolve h
  rw [process_file_ok df ft hall] at h
  exact (Option.some.inj h).symm

/-- `process_file` on an arbitrary input equals `process_file` on the
stripped input: everything downstream of the loop depends on the frame
only through its stripped form. -/
theorem process_file_strip (df : DataFrame) (ft : String) :
    process_file (some (stripCols df)) ft = process_file (some df) ft := by
  have hpairs : findColsLoop col_map (stripCols df) = findColsLoop col_map df := by
    rw [findColsLoop_colmap df, findColsLoop_eq col_map df]
  show (match findColsLoop col_map (stripCols df) with
    | (dfs, Except.error std) => ProcOutcome.mk none [missingColMsg ft std] (some dfs)
    | (dfs, Except.ok found) => ProcOutcome.mk (some (insertSN (mapCol (renameDf
        (dropnaSubset (project dfs
          [assocGet found "Date", assocGet found "Invoice No",
           assocGet found "Party Name", assocGet found "Taxable Amount",
           assocGet found "GST Rate"])
          [assocGet found "Party Name", assocGet found "Taxable Amount"]) found)
        "GST Rate" (fun v => Value.str (v.toStr ++ "%"))))) [] (some dfs)) = _
  rw [hpairs]
  rfl

/-- The caller's frame after any `process_file` call on a real table:
labels stripped, rows untouched. -/
theorem process_file_after (df : DataFrame) (ft : String) :
    (process_file (some df) ft).dfAfter = some (stripCols df) := by
  cases h : allFieldsResolve (stripCols df).columns
  · rw [process_file_err df ft h]
  · rw [process_file_ok df ft h]

/-- The alias list recorded in `col_map` for any of its entries. -/
theorem fieldAliases_of_mem {q : String × List String} (hm : q ∈ col_map) :
    fieldAliases q.1 = q.2 := by
  fin_cases hm <;> rfl

/-- When resolution fails, the first missing field is a genuine logical
field and none of its aliases is present. -/
theorem firstMissing_spec {cols : List String}
    (hfail : allFieldsResolve cols = false) :
    firstMissingField cols ∈ col_map.map Prod.fst
    ∧ resolvesField cols (fieldAliases (firstMissingField cols)) = false := by
  have hex : ∃ pr, pr ∈ col_map ∧ resolvesField cols pr.2 = false := by
    rw [allFieldsResolve, List.all_eq_false] at hfail
    obtain ⟨pr, hmem, hnot⟩ := hfail
    refine ⟨pr, hmem, ?_⟩
    cases hv : resolvesField cols pr.2
    · rfl
    · exact absurd hv hnot
  obtain ⟨pr, hmem, hval⟩ := hex
  have hs : (col_map.find? (fun pr2 => !resolvesField cols pr2.2)).isSome := by
    rw [List.find?_isSome]
    exact ⟨pr, hmem, by rw [hval]; rfl⟩
  obtain ⟨q, hq⟩ := Option.isSome_iff_exists.mp hs
  have hfirst : firstMissingField cols = q.1 := by
    rw [firstMissingField, hq]
    rfl
  have hqmem : q ∈ col_map := List.mem_of_find?_eq_some hq
  have hqval : resolvesField cols q.2 = false := by
    have := List.find?_some hq
    cases hv : resolvesField cols q.2
    · rfl
    · rw [hv] at this
      cases this
  refine ⟨?_, ?_⟩
  · rw [hfirst]
    exact List.mem_map_of_mem Prod.fst hqmem
  · rw [hfirst, fieldAliases_of_mem hqmem]
    exact hqval

/-- Every returned table has the canonical column list. -/
theorem result_columns {df? : Option DataFrame} {ft : String} {out : DataFrame}
    (h : (process_file df? ft).result = some out) : out.columns = finalColumns := by
  cases df? with
  | none => cases h
  | some df =>
    rw [result_shape h]

/-!  The claims. -/

/-- Claim C9: `process_file` mutates its input frame in place exactly by
stripping whitespace from its column labels — this happens on every call
with a table, resolution failure included — and never touches the cell
data: the caller's rows are returned unchanged. -/
theorem claim9_frame_mutation (df : DataFrame) (ft : String) :
    (process_file (some df) ft).dfAfter
      = some ⟨df.columns.map stripName, df.rows⟩ :=
  process_file_after df ft

/-- Claim C8: running the extractor a second time on the table left
behind by a first run (the stripped frame) produces the same outcome:
extraction is idempotent over its input. -/
theorem claim8_idempotent (df : DataFrame) (ft : String) (df2 : DataFrame)
    (h : (process_file (some df) ft).dfAfter = some df2) :
    process_file (some df2) ft = process_file (some df) ft := by
  have h2 : some df2 = some (stripCols df) := by
    rw [← h, process_file_after df ft]
  rw [Option.some.inj h2, process_file_strip]

/-- Witness for C8 at a concrete loaded table. -/
theorem claim8_witness :
    process_file (some (stripCols dfGood)) "Purchase"
      = process_file (some dfGood) "Purchase" :=
  claim8_idempotent dfGood "Purchase" (stripCols dfGood) rfl

/-- Claim C2: on resolution success the extractor drops exactly the
rows missing Party Name or Taxable Amount: the output length is the
input length minus the number of dropped rows, equivalently the number
of surviving rows; no error is emitted, and an empty input yields an
empty clean table. -/
theorem claim2_row_filter (df : DataFrame) (ft : String) (out : DataFrame)
    (h : (process_file (some df) ft).result = some out) :
    out.rows.length = df.rows.length
        - (df.rows.filter (fun r => !(keepRow (stripCols df).columns r))).length
    ∧ out.rows.length = (df.rows.filter (keepRow (stripCols df).columns)).length
    ∧ (process_file (some df) ft).errors = []
    ∧ (df.rows = [] → out.rows = []) := by
  have hall := result_some_resolve h
  have hshape := result_shape h
  have hlen : out.rows.length
      = (df.rows.filter (keepRow (stripCols df).columns)).length := by
    rw [hshape]
    show (snRows 1 _).length = _
    rw [snRows_length, List.length_map]
  have hsplit := length_filter_not (keepRow (stripCols df).columns) df.rows
  refine ⟨by omega, hlen, ?_, ?_⟩
  · rw [process_file_ok df ft hall]
  · intro hnil
    rw [hshape, hnil]
    rfl

/-- Witness for C2 at a table with one surviving and one dropped row. -/
theorem claim2_witness :
    ((process_file (some dfMixed) "Purchase").result.getD emptyDf).rows.length
      = dfMixed.rows.length
        - (dfMixed.rows.filter
            (fun r => !(keepRow (stripCols dfMixed).columns r))).length :=
  (claim2_row_filter dfMixed "Purchase" _ rfl).1

/-- Claim C4: in every clean table the serial-number cell of the row at
0-based position j is the integer j + 1: serials are 1-based,
contiguous, strictly increasing and duplicate-free. -/
theorem claim4_serials (df : DataFrame) (ft : String) (out : DataFrame)
    (h : (process_file (some df) ft).result = some out) :
    ∀ j : Nat, j < out.rows.length →
      (out.rows.getD j []).getD 0 Value.nan = Value.num (j + 1) := by
  have hshape := result_shape h
  intro j hjo
  have hlen : out.rows.length
      = (df.rows.filter (keepRow (stripCols df).columns)).length := by
    rw [hshape]
    show (snRows 1 _).length = _
    rw [snRows_length, List.length_map]
  have hj : j < ((df.rows.filter (keepRow (stripCols df).columns)).map
      (cleanRow (stripCols df).columns)).length := by
    rw [List.length_map]
    omega
  have h2 : out.rows[j]? = some (Value.num (1 + (j : Int)) ::
      ((df.rows.filter (keepRow (stripCols df).columns)).map
        (cleanRow (stripCols df).columns)).get ⟨j, hj⟩) := by
    rw [hshape]
    show (snRows 1 _)[j]? = _
    rw [snRows_getElem?, List.getElem?_eq_getElem hj]
    rfl
  rw [List.getD_eq_getElem?_getD out.rows j [], h2, Option.getD_some]
  simp only [List.getD_eq_getElem?_getD, List.getElem?_cons_zero, Option.getD_some]
  congr 1
  omega

/-- Witness for C4 at a concrete table: the first clean row carries
serial 1. -/
theorem claim4_witness :
    0 < ((process_file (some dfGood) "Purchase").result.getD emptyDf).rows.length
    ∧ ((((process_file (some dfGood) "Purchase").result.getD emptyDf).rows.getD 0 []).getD 0
        Value.nan) = Value.num 1 :=
  ⟨by decide, claim4_serials dfGood "Purchase" _ rfl 0 (by decide)⟩

/-- Claim C3: every clean row's GST Rate cell is the string form of the
corresponding surviving source row's rate cell with a percent sign
appended — no re-parsing, no validation. -/
theorem claim3_gst_format (df : DataFrame) (ft : String) (out : DataFrame)
    (h : (process_file (some df) ft).result = some out) :
    ∀ j : Nat, j < out.rows.length →
      j < (df.rows.filter (keepRow (stripCols df).columns)).length
      ∧ (out.rows.getD j []).getD 5 Value.nan
          = Value.str ((getCell (stripCols df).columns
              ((df.rows.filter (keepRow (stripCols df).columns)).getD j [])
              (resolvedName (stripCols df).columns "GST Rate")).toStr ++ "%") := by
  have hshape := result_shape h
  intro j hjo
  have hlen : out.rows.length
      = (df.rows.filter (keepRow (stripCols df).columns)).length := by
    rw [hshape]
    show (snRows 1 _).length = _
    rw [snRows_length, List.length_map]
  have hjf : j < (df.rows.filter (keepRow (stripCols df).columns)).length := by
    omega
  have hjm : j < ((df.rows.filter (keepRow (stripCols df).columns)).map
      (cleanRow (stripCols df).columns)).length := by
    rw [List.length_map]
    omega
  refine ⟨hjf, ?_⟩
  have h2 : out.rows[j]? = some (Value.num (1 + (j : Int)) ::
      cleanRow (stripCols df).columns
        ((df.rows.filter (keepRow (stripCols df).columns)).get ⟨j, hjf⟩)) := by
    rw [hshape]
    show (snRows 1 _)[j]? = _
    rw [snRows_getElem?, List.getElem?_eq_getElem hjm, List.getElem_map]
    rfl
  rw [List.getD_eq_getElem?_getD out.rows j [], h2, Option.getD_some]
  rw [List.getD_eq_getElem?_getD (df.rows.filter (keepRow (stripCols df).columns)) j [],
    List.getElem?_eq_getElem hjf, Option.getD_some]
  rfl

/-- Witness for C3 at a concrete table: source rate 18 becomes the
string cell 18 percent. -/
theorem claim3_witness :
    0 < ((process_file (some dfGood) "Purchase").result.getD emptyDf).rows.length
    ∧ ((((process_file (some dfGood) "Purchase").result.getD emptyDf).rows.getD 0 []).getD 5
        Value.nan) = Value.str "18%" :=
  ⟨by decide, (claim3_gst_format dfGood "Purchase" _ rfl 0 (by decide)).2⟩

/-- Claim C1: column resolution succeeds exactly when each of the five
logical fields has an alias among the stripped column labels; on success
every field maps to the first matching alias in declared order; on
failure the call returns no table and reports a single error naming the
file type and a missing logical field. -/
theorem claim1_column_resolution (df : DataFrame) (ft : String) :
    ((process_file (some df) ft).result.isSome
        = allFieldsResolve (stripCols df).columns)
    ∧ (allFieldsResolve (stripCols df).columns = true →
        (findColsLoop col_map df).2 = Except.ok (col_map.map (fun pr =>
          (pr.1, (pr.2.find? (fun a => (stripCols df).columns.contains a)).getD ""))))
    ∧ (allFieldsResolve (stripCols df).columns = false →
        (process_file (some df) ft).result = none
        ∧ (process_file (some df) ft).errors
            = [missingColMsg ft (firstMissingField (stripCols df).columns)]
        ∧ firstMissingField (stripCols df).columns ∈ col_map.map Prod.fst
        ∧ resolvesField (stripCols df).columns
            (fieldAliases (firstMissingField (stripCols df).columns)) = false) := by
  refine ⟨process_file_isSome df ft, ?_, ?_⟩
  · intro hall
    rw [findColsLoop_colmap]
    show resolveList col_map (stripCols df).columns = _
    refine resolveList_ok col_map _ ?_
    rw [allFieldsResolve, List.all_eq_true] at hall
    exact hall
  · intro hfail
    have hspec := firstMissing_spec hfail
    rw [process_file_err df ft hfail]
    exact ⟨rfl, rfl, hspec.1, hspec.2⟩

/-- Witness for C1: a resolvable table succeeds; a table with no
Taxable Amount alias fails with the matching message. -/
theorem claim1_witness :
    (process_file (some dfGood) "Purchase").result.isSome = true
    ∧ (process_file (some dfBad) "Purchase").result = none
    ∧ (process_file (some dfBad) "Purchase").errors
        = [missingColMsg "Purchase" "Taxable Amount"] := by
  refine ⟨?_, ?_, ?_⟩
  · rw [(claim1_column_resolution dfGood "Purchase").1]
    rfl
  · exact ((claim1_column_resolution dfBad "Purchase").2.2 rfl).1
  · exact ((claim1_column_resolution dfBad "Purchase").2.2 rfl).2.1

set_option maxHeartbeats 4000000 in
/-- A produced artifact pins down both pipeline results and the two
sheets. -/
theorem handleClick_artifact (pf sf : UploadedFile) (sheets : List Sheet)
    (hart : (handleClick (some pf) (some sf)).artifact = some sheets) :
    ∃ pdf sdf,
      (process_file (load_data (some pf)).toOption "Purchase").result = some pdf
      ∧ (process_file (load_data (some sf)).toOption "Sales").result = some sdf
      ∧ sheets = [⟨"Purchase Data", pdf, false⟩, ⟨"Sales Data", sdf, false⟩] := by
  unfold handleClick at hart
  dsimp only [] at hart
  cases hp : (process_file (load_data (some pf)).toOption "Purchase").result with
  | none =>
    rw [hp] at hart
    exact Option.noConfusion hart
  | some pdf =>
    cases hs : (process_file (load_data (some sf)).toOption "Sales").result with
    | none =>
      rw [hp, hs] at hart
      exact Option.noConfusion hart
    | some sdf =>
      rw [hp, hs] at hart
      exact ⟨pdf, sdf, rfl, rfl, (Option.some.inj hart).symm⟩

/-- Claim C5: every clean table has exactly the canonical columns in
order, its rows keep the relative order of the surviving source rows,
and the serialized sheets use this column order with the synthetic row
index disabled. -/
theorem claim5_output_shape (df : DataFrame) (ft : String) (out : DataFrame)
    (h : (process_file (some df) ft).result = some out) :
    out.columns = finalColumns
    ∧ out.rows = snRows 1 ((df.rows.filter (keepRow (stripCols df).columns)).map
        (cleanRow (stripCols df).columns))
    ∧ (∀ pf sf : UploadedFile, ∀ sheets : List Sheet,
        (handleClick (some pf) (some sf)).artifact = some sheets →
        sheets.map Sheet.name = ["Purchase Data", "Sales Data"]
        ∧ (∀ sh ∈ sheets, sh.includeIndex = false
            ∧ sh.table.columns = finalColumns)) := by
  refine ⟨by rw [result_shape h], by rw [result_shape h], ?_⟩
  intro pf sf sheets hart
  obtain ⟨pdf, sdf, hp, hs, hsheets⟩ := handleClick_artifact pf sf sheets hart
  subst hsheets
  refine ⟨rfl, ?_⟩
  intro sh hsh
  rcases List.mem_cons.mp hsh with rfl | hsh2
  · exact ⟨rfl, result_columns hp⟩
  · rcases List.mem_cons.mp hsh2 with rfl | hsh3
    · exact ⟨rfl, result_columns hs⟩
    · cases hsh3

set_option maxHeartbeats 4000000 in
/-- Witness for C5: concrete clean-table columns and concrete sheets. -/
theorem claim5_witness :
    ((process_file (some dfGood) "Purchase").result.getD emptyDf).columns = finalColumns
    ∧ ((handleClick (some pfGood) (some sfGood)).artifact.getD []).map Sheet.name
        = ["Purchase Data", "Sales Data"] := by
  refine ⟨(claim5_output_shape dfGood "Purchase" _ rfl).1, ?_⟩
  have h := ((claim5_output_shape dfGood "Purchase" _ rfl).2.2 pfGood sfGood
    [⟨"Purchase Data",
       ⟨["S/N", "Date", "Invoice No", "Party Name", "Taxable Amount", "GST Rate"],
        [[Value.num 1, Value.str "2024-01-01", Value.str "INV001",
          Value.str "Acme Co", Value.num 1000, Value.str "18%"]]⟩, false⟩,
     ⟨"Sales Data",
       ⟨["S/N", "Date", "Invoice No", "Party Name", "Taxable Amount", "GST Rate"],
        [[Value.num 1, Value.str "2024-02-02", Value.str "S1",
          Value.str "Gamma Inc", Value.num 700, Value.str "5%"]]⟩, false⟩]
    (by rfl)).1
  exact h

set_option maxHeartbeats 4000000 in
/-- Claim C6: with both files uploaded, both pipelines always run and
their error reports accumulate; the two-sheet artifact exists exactly
when both pipelines return a table, and the artifact always holds the
two named sheets — never a single-sheet workbook. -/
theorem claim6_assembler (pf sf : UploadedFile) :
    ((handleClick (some pf) (some sf)).artifact.isSome
        = ((process_file (load_data (some pf)).toOption "Purchase").result.isSome
            && (process_file (load_data (some sf)).toOption "Sales").result.isSome))
    ∧ ((handleClick (some pf) (some sf)).errors
        = (load_data (some pf)).errs ++ (load_data (some sf)).errs
          ++ (process_file (load_data (some pf)).toOption "Purchase").errors
          ++ (process_file (load_data (some sf)).toOption "Sales").errors
          ++ (if ((process_file (load_data (some pf)).toOption "Purchase").result.isSome
                && (process_file (load_data (some sf)).toOption "Sales").result.isSome)
                = true
              then [] else [reviewMsg]))
    ∧ (∀ sheets : List Sheet,
        (handleClick (some pf) (some sf)).artifact = some sheets →
        ∃ pdf sdf,
          (process_file (load_data (some pf)).toOption "Purchase").result = some pdf
          ∧ (process_file (load_data (some sf)).toOption "Sales").result = some sdf
          ∧ sheets = [⟨"Purchase Data", pdf, false⟩, ⟨"Sales Data", sdf, false⟩]) := by
  refine ⟨?_, ?_, fun sheets hart => handleClick_artifact pf sf sheets hart⟩
  · unfold handleClick
    dsimp only []
    cases hp : (process_file (load_data (some pf)).toOption "Purchase").result <;>
      cases hs : (process_file (load_data (some sf)).toOption "Sales").result <;> rfl
  · unfold handleClick
    dsimp only []
    cases hp : (process_file (load_data (some pf)).toOption "Purchase").result <;>
      cases hs : (process_file (load_data (some sf)).toOption "Sales").result <;> simp

set_option maxHeartbeats 4000000 in
/-- Witness for C6: with two valid uploads the artifact exists and holds
the two sheets. -/
theorem claim6_witness :
    ∃ pdf sdf,
      (process_file (load_data (some pfGood)).toOption "Purchase").result = some pdf
      ∧ (process_file (load_data (some sfGood)).toOption "Sales").result = some sdf
      ∧ ([⟨"Purchase Data",
            ⟨["S/N", "Date", "Invoice No", "Party Name", "Taxable Amount", "GST Rate"],
             [[Value.num 1, Value.str "2024-01-01", Value.str "INV001",
               Value.str "Acme Co", Value.num 1000, Value.str "18%"]]⟩, false⟩,
          ⟨"Sales Data",
            ⟨["S/N", "Date", "Invoice No", "Party Name", "Taxable Amount", "GST Rate"],
             [[Value.num 1, Value.str "2024-02-02", Value.str "S1",
               Value.str "Gamma Inc", Value.num 700, Value.str "5%"]]⟩, false⟩]
          : List Sheet)
          = [⟨"Purchase Data", pdf, false⟩, ⟨"Sales Data", sdf, false⟩] :=
  (claim6_assembler pfGood sfGood).2.2 _ (by rfl)

/-- Claim C7 counterexample: an upload with ten well-formed rows but an
unrecognized extension.  `load_data` returns no table, yet emits no
error report at all — against the claim that unrecognized-format
failures report an error with the file name and cause. -/
theorem claim7_counterexample :
    (load_data (some txtFile)).toOption = none
    ∧ (load_data (some txtFile)).errs = []
    ∧ 9 ≤ (List.replicate 10 ([Value.str "x"] : List Value)).length :=
  ⟨rfl, rfl, by decide⟩

/-- Claim C7 (amended): `load_data` skips exactly 8 leading rows and
takes the next row as header; for a recognized extension (.csv, .xls,
.xlsx) it reports an error carrying the file name and the cause and
returns no table when the content is corrupt or has fewer than 9 rows;
for an unrecognized extension it returns no table silently; and a load
failure aborts only that file's pipeline (`process_file` on a missing
table reports nothing and returns nothing). -/
theorem claim7_load_contract (name : String)
    (content : Except String (List (List Value))) (ft : String) :
    load_data (some ⟨name, content⟩) =
      (if recognizedExt name = true then
        match content with
        | Except.error e => LoadOutcome.failed (loadErrMsg name e)
        | Except.ok rows =>
          if rows.length ≤ 8 then LoadOutcome.failed (loadErrMsg name emptyDataMsg)
          else LoadOutcome.ok ⟨(rows.getD 8 []).map Value.toStr, rows.drop 9⟩
       else LoadOutcome.silent)
    ∧ load_data none = LoadOutcome.silent
    ∧ process_file none ft = ⟨none, [], none⟩ := by
  refine ⟨?_, rfl, rfl⟩
  have hread : ∀ rows : List (List Value),
      (match readSkip8 rows with
       | none => LoadOutcome.failed (loadErrMsg name emptyDataMsg)
       | some df => LoadOutcome.ok df) =
      (if rows.length ≤ 8 then LoadOutcome.failed (loadErrMsg name emptyDataMsg)
       else LoadOutcome.ok ⟨(rows.getD 8 []).map Value.toStr, rows.drop 9⟩) := by
    intro rows
    by_cases hlen : rows.length ≤ 8
    · rw [if_pos hlen]
      have hnil : rows.drop 8 = [] := List.drop_eq_nil_iff.mpr hlen
      unfold readSkip8
      rw [hnil]
    · rw [if_neg hlen]
      have h8 : 8 < rows.length := by omega
      have hcons : rows.drop 8 = rows[8] :: rows.drop 9 :=
        List.drop_eq_getElem_cons h8
      have hgd : rows.getD 8 [] = rows[8] := by
        rw [List.getD_eq_getElem?_getD, List.getElem?_eq_getElem h8, Option.getD_some]
      unfold readSkip8
      rw [hcons, hgd]
  unfold load_data
  dsimp only []
  cases h1 : endsWithName name ".csv" <;>
    cases h2 : endsWithName name ".xls" <;>
    cases h3 : endsWithName name ".xlsx" <;>
    cases content <;>
    simp [recognizedExt, h1, h2, h3, hread]

/-- Claim C10: a surviving row whose GST Rate cell is missing is neither
dropped nor validated: its clean row carries the literal text cell
nan-percent. -/
theorem claim10_nan_rate (df : DataFrame) (ft : String) (out : DataFrame)
    (r : List Value)
    (h : (process_file (some df) ft).result = some out)
    (hr : r ∈ df.rows)
    (hk : keepRow (stripCols df).columns r = true)
    (hnan : getCell (stripCols df).columns r
        (resolvedName (stripCols df).columns "GST Rate") = Value.nan) :
    ∃ j : Int, (Value.num j ::
      [getCell (stripCols df).columns r (resolvedName (stripCols df).columns "Date"),
       getCell (stripCols df).columns r (resolvedName (stripCols df).columns "Invoice No"),
       getCell (stripCols df).columns r (resolvedName (stripCols df).columns "Party Name"),
       getCell (stripCols df).columns r (resolvedName (stripCols df).columns "Taxable Amount"),
       Value.str "nan%"]) ∈ out.rows := by
  have hshape := result_shape h
  have hmem : r ∈ df.rows.filter (keepRow (stripCols df).columns) :=
    List.mem_filter.mpr ⟨hr, hk⟩
  have hmem2 : cleanRow (stripCols df).columns r
      ∈ (df.rows.filter (keepRow (stripCols df).columns)).map
        (cleanRow (stripCols df).columns) :=
    List.mem_map_of_mem _ hmem
  obtain ⟨j, hj⟩ := snRows_mem hmem2 1
  refine ⟨j, ?_⟩
  rw [hshape]
  show _ ∈ snRows 1 _
  have hcr : cleanRow (stripCols df).columns r =
      [getCell (stripCols df).columns r (resolvedName (stripCols df).columns "Date"),
       getCell (stripCols df).columns r (resolvedName (stripCols df).columns "Invoice No"),
       getCell (stripCols df).columns r (resolvedName (stripCols df).columns "Party Name"),
       getCell (stripCols df).columns r (resolvedName (stripCols df).columns "Taxable Amount"),
       Value.str "nan%"] := by
    rw [cleanRow, hnan]
    rfl
  rw [← hcr]
  exact hj

/-- Witness for C10: the concrete nan-rate row survives and yields the
text cell nan-percent. -/
theorem claim10_witness :
    ∃ j : Int, (Value.num j ::
      [getCell (stripCols dfNan).columns nanRow
         (resolvedName (stripCols dfNan).columns "Date"),
       getCell (stripCols dfNan).columns nanRow
         (resolvedName (stripCols dfNan).columns "Invoice No"),
       getCell (stripCols dfNan).columns nanRow
         (resolvedName (stripCols dfNan).columns "Party Name"),
       getCell (stripCols dfNan).columns nanRow
         (resolvedName (stripCols dfNan).columns "Taxable Amount"),
       Value.str "nan%"])
      ∈ ((process_file (some dfNan) "Purchase").result.getD emptyDf).rows :=
  claim10_nan_rate dfNan "Purchase" _ nanRow rfl (List.mem_cons_self nanRow [])
    rfl rfl
